import Mathlib

/-!
Shallow embedding of the Devcade onboard backend (src/onboard/backend/src/lib.rs and
src/onboard/backend/src/api/mod.rs) together with theorems checking the repository's
specification against the code.

Filesystem and network effects are made explicit: directory listings, manifest parse
results, network fetch results and libc return codes become explicit parameters, so that
every function of the source translates into a total, executable Lean function.
-/

/-- Errors produced by filesystem or network operations (the payload of `anyhow::Error`
or `std::io::Error`); only the message is relevant to the embedding. -/
abbrev FsErr := String

/-- The schema struct `DevcadeGame` of the repository (all fields are strings in the
source schema). -/
structure DevcadeGame where
  id : String
  author : String
  upload_date : String
  name : String
  hash : String
  description : String
  icon_link : String
  banner_link : String
deriving DecidableEq

/-- The schema struct `MinimalGame`: the id-only projection returned by tag queries. -/
structure MinimalGame where
  id : String
deriving DecidableEq

/- ===== game_list_from_fs (api/mod.rs lines 171-193) =====
The source walks the immediate entries of the install root (`read_dir(devcade_path())?`),
skips non-directories, then walks each subdirectory (`read_dir(path)?`), skips nested
directories, and keeps every file that `game_from_path` parses (`if let Ok(game)`); parse
failures are silently skipped while every `?` on a read_dir result propagates.

A file node carries the result of `game_from_path` on it (`some g` when the file parses as
a `DevcadeGame`, `none` when reading or JSON-decoding fails). Directory listings are
`Except` values since `read_dir` and each yielded entry can fail. -/

/-- An entry inside one game subdirectory: a nested directory (skipped by the scan, its
contents are never read) or a file with its `game_from_path` parse result. -/
inductive InnerNode where
  | file (parse : Option DevcadeGame)
  | dir
deriving DecidableEq

/-- An immediate entry of the install root: a non-directory (skipped) or a subdirectory
with the result of listing it. -/
inductive RootNode where
  | file
  | dir (listing : Except FsErr (List (Except FsErr InnerNode)))

/-- Combinator for one file step of the inner loop: a game parsed from the current file is
pushed onto the (error-propagating) scan of the remaining entries. -/
def consParse (parse : Option DevcadeGame) :
    Except FsErr (List DevcadeGame) → Except FsErr (List DevcadeGame)
  | Except.error e => Except.error e
  | Except.ok gs =>
    match parse with
    | some g => Except.ok (g :: gs)
    | none => Except.ok gs

/-- Combinator for one subdirectory step of the outer loop: the games of the current
subdirectory precede those of the remaining entries, and errors from either side
propagate (the subdirectory's own error first, matching source evaluation order). -/
def appendScan :
    Except FsErr (List DevcadeGame) → Except FsErr (List DevcadeGame) →
    Except FsErr (List DevcadeGame)
  | Except.error e, _ => Except.error e
  | Except.ok _, Except.error e => Except.error e
  | Except.ok gs, Except.ok gs' => Except.ok (gs ++ gs')

/-- The inner loop of `game_list_from_fs`: walk one subdirectory's entries in order,
propagating any entry read error, skipping nested directories, and keeping files that
parse as games. -/
def scanInner : List (Except FsErr InnerNode) → Except FsErr (List DevcadeGame)
  | [] => Except.ok []
  | Except.error e :: _ => Except.error e
  | Except.ok InnerNode.dir :: rest => scanInner rest
  | Except.ok (InnerNode.file parse) :: rest => consParse parse (scanInner rest)

/-- The outer loop of `game_list_from_fs`: walk the install root's entries in order,
propagating entry read errors and subdirectory listing errors, skipping non-directories,
and concatenating the games found in each subdirectory. -/
def scanRoot : List (Except FsErr RootNode) → Except FsErr (List DevcadeGame)
  | [] => Except.ok []
  | Except.error e :: _ => Except.error e
  | Except.ok RootNode.file :: rest => scanRoot rest
  | Except.ok (RootNode.dir (Except.error e)) :: _ => Except.error e
  | Except.ok (RootNode.dir (Except.ok inner)) :: rest =>
    appendScan (scanInner inner) (scanRoot rest)

/-- The function `game_list_from_fs` of api/mod.rs: `read_dir` on the install root
(which may itself fail) followed by the two-level scan. -/
def game_list_from_fs (root : Except FsErr (List (Except FsErr RootNode))) :
    Except FsErr (List DevcadeGame) :=
  match root with
  | Except.error e => Except.error e
  | Except.ok entries => scanRoot entries

/-- Truth of this predicate on an inner entry means reading the entry succeeded
(whether or not its contents parse as a game). -/
def innerOk : Except FsErr InnerNode → Bool
  | Except.ok _ => true
  | Except.error _ => false

/-- Truth of this predicate on a root entry means every filesystem read it involves
succeeds: the entry itself, and, for a subdirectory, its listing and each listed entry. -/
def rootEntryReadsOk : Except FsErr RootNode → Bool
  | Except.error _ => false
  | Except.ok RootNode.file => true
  | Except.ok (RootNode.dir (Except.error _)) => false
  | Except.ok (RootNode.dir (Except.ok inner)) => inner.all innerOk

/-- The games whose manifest files parse successfully inside one subdirectory, in
listing order. -/
def gamesOfInner : List (Except FsErr InnerNode) → List DevcadeGame
  | [] => []
  | Except.ok (InnerNode.file (some g)) :: rest => g :: gamesOfInner rest
  | _ :: rest => gamesOfInner rest

/-- The games contributed by one root entry: those of its listing when it is a readable
subdirectory, nothing otherwise. -/
def gamesOfRootEntry : Except FsErr RootNode → List DevcadeGame
  | Except.ok (RootNode.dir (Except.ok inner)) => gamesOfInner inner
  | _ => []

/-- All successfully parsed games below the install root, in scan order. -/
def gamesOfRoot : List (Except FsErr RootNode) → List DevcadeGame
  | [] => []
  | e :: rest => gamesOfRootEntry e ++ gamesOfRoot rest

lemma scanInner_ok (inner : List (Except FsErr InnerNode)) (h : inner.all innerOk = true) :
    scanInner inner = Except.ok (gamesOfInner inner) := by
  induction inner with
  | nil => rfl
  | cons hd rest ih =>
    simp only [List.all_cons, Bool.and_eq_true] at h
    match hd with
    | Except.error e => simp [innerOk] at h
    | Except.ok InnerNode.dir =>
      simp [scanInner, gamesOfInner, ih h.2]
    | Except.ok (InnerNode.file parse) =>
      cases parse with
      | some g => simp [scanInner, gamesOfInner, consParse, ih h.2]
      | none => simp [scanInner, gamesOfInner, consParse, ih h.2]

/-- Claim C1 (amended): whenever every directory read below the install root succeeds
(root listing, each root entry, each subdirectory listing and each of its entries),
`game_list_from_fs` succeeds and returns exactly the successfully parsed games, however
many manifests are malformed or missing; a malformed manifest never fails the call. -/
theorem game_list_from_fs_scan_ok (root : List (Except FsErr RootNode))
    (h : root.all rootEntryReadsOk = true) :
    game_list_from_fs (Except.ok root) = Except.ok (gamesOfRoot root) := by
  show scanRoot root = Except.ok (gamesOfRoot root)
  induction root with
  | nil => rfl
  | cons hd rest ih =>
    simp only [List.all_cons, Bool.and_eq_true] at h
    match hd with
    | Except.error e => simp [rootEntryReadsOk] at h
    | Except.ok RootNode.file =>
      simp [scanRoot, gamesOfRoot, gamesOfRootEntry, ih h.2]
    | Except.ok (RootNode.dir (Except.error e)) => simp [rootEntryReadsOk] at h
    | Except.ok (RootNode.dir (Except.ok inner)) =>
      have hin : inner.all innerOk = true := h.1
      simp [scanRoot, gamesOfRoot, gamesOfRootEntry, scanInner_ok inner hin, appendScan,
        ih h.2]

/-- Example game record used by concrete witnesses. -/
def g0 : DevcadeGame := ⟨"g0", "dev", "2024", "Game Zero", "h0", "", "", ""⟩

/-- Concrete install root: one subdirectory whose manifest parses (plus an unparseable
file and a nested directory), one subdirectory with no valid manifest, and a stray
non-directory root entry. -/
def root0 : List (Except FsErr RootNode) :=
  [Except.ok (RootNode.dir (Except.ok
      [Except.ok (InnerNode.file (some g0)),
       Except.ok (InnerNode.file none),
       Except.ok InnerNode.dir])),
   Except.ok (RootNode.dir (Except.ok [Except.ok (InnerNode.file none)])),
   Except.ok RootNode.file]

/-- Witness for C1: on `root0` (one valid manifest, one invalid subdirectory) the scan
succeeds with exactly the one parsed game. -/
theorem game_list_from_fs_scan_ok_witness :
    game_list_from_fs (Except.ok root0) = Except.ok [g0] := by
  rw [game_list_from_fs_scan_ok root0 (by rfl)]
  rfl

/-- Counterexample for C1 as stated: the root listing itself succeeds and the single
subdirectory merely cannot be listed (for instance a permission error), yet the whole
call fails, so read errors below the root level do propagate, contrary to the claim that
only root-level read errors do and that the call otherwise returns the parsed subset. -/
theorem game_list_from_fs_subdir_error_propagates :
    game_list_from_fs (Except.ok [Except.ok (RootNode.dir (Except.error ("EACCES")))]) =
      Except.error ("EACCES") := by
  rfl

/- ===== launch_game executable resolution (api/mod.rs lines 429-478) =====
The source iterates `read_dir(publish)`, skips entries whose read failed and entries that
are not files, and on the first file whose name ends with "runtimeconfig.json" sets the
executable to `path.file_prefix()` and breaks. Rust's `file_prefix` is the portion of the
file name before the first dot that is not the leading character (the `split_file_at_dot`
helper of the Rust standard library), with ".." returned whole. If the loop sets nothing,
the executable falls back to the manifest's `game.name`. -/

/-- Byte-level suffix test of Rust `str::ends_with`, expressed on character lists (the
suffixes used by the source are ASCII, where the two coincide). -/
def str_ends_with (s suffix : String) : Bool :=
  List.isSuffixOf suffix.toList s.toList

/-- Semantics of Rust `Path::file_prefix` on a file name: the name up to but excluding
the first dot occurring at index one or later, the whole name when there is no such dot,
and ".." returned whole. -/
def split_file_at_dot (name : String) : String :=
  if name = ".." then name
  else
    match name.toList with
    | [] => ""
    | c :: rest =>
      match rest.findIdx? (fun ch => ch == '.') with
      | none => name
      | some i => String.mk (c :: rest.take i)

/-- Modelled from the spec: the claim's phrase "that file's name with its final extension
removed" (the semantics of Rust `Path::file_stem`, which the source does not use),
written down only to compare with the source's `file_prefix` behaviour. -/
def strip_final_extension (name : String) : String :=
  match name.toList.reverse.findIdx? (fun ch => ch == '.') with
  | none => name
  | some i => String.mk (name.toList.take (name.toList.length - i - 1))

/-- A directory entry of the publish directory as the resolution loop sees it: its file
name and whether `path.is_file()` holds. -/
structure PubEntry where
  name : String
  isFile : Bool
deriving DecidableEq

/-- The resolution loop of `launch_game`: entries whose read failed are skipped, non-files
are skipped, and the first file name ending in "runtimeconfig.json" yields its
`file_prefix`; the loop leaves the executable name empty when nothing matches. -/
def infer_executable : List (Except FsErr PubEntry) → String
  | [] => ""
  | Except.error _ :: rest => infer_executable rest
  | Except.ok e :: rest =>
    if !e.isFile then infer_executable rest
    else if !(str_ends_with e.name ("runtimeconfig.json")) then infer_executable rest
    else split_file_at_dot e.name

/-- Executable resolution of `launch_game`: the loop's result, or the manifest's game
name when the loop found nothing (`executable.is_empty()`). -/
def resolve_executable (entries : List (Except FsErr PubEntry)) (manifestName : String) :
    String :=
  if infer_executable entries = "" then manifestName else infer_executable entries

/-- The first readable file entry whose name ends in "runtimeconfig.json", if any: the
candidate the source's loop breaks on. -/
def firstMatch : List (Except FsErr PubEntry) → Option String
  | [] => none
  | Except.error _ :: rest => firstMatch rest
  | Except.ok e :: rest =>
    if !e.isFile then firstMatch rest
    else if !(str_ends_with e.name ("runtimeconfig.json")) then firstMatch rest
    else some e.name

lemma infer_executable_eq_firstMatch (entries : List (Except FsErr PubEntry)) :
    infer_executable entries =
      (match firstMatch entries with
       | some f => split_file_at_dot f
       | none => "") := by
  induction entries with
  | nil => rfl
  | cons hd rest ih =>
    match hd with
    | Except.error e => simpa [infer_executable, firstMatch] using ih
    | Except.ok e =>
      by_cases hf : e.isFile = true
      · by_cases hs : str_ends_with e.name ("runtimeconfig.json") = true
        · simp [infer_executable, firstMatch, hf, hs]
        · simp only [Bool.not_eq_true] at hs
          simpa [infer_executable, firstMatch, hf, hs] using ih
      · simp only [Bool.not_eq_true] at hf
        simpa [infer_executable, firstMatch, hf] using ih

lemma firstMatch_ends_with (entries : List (Except FsErr PubEntry)) (f : String)
    (h : firstMatch entries = some f) :
    str_ends_with f ("runtimeconfig.json") = true := by
  induction entries with
  | nil => simp [firstMatch] at h
  | cons hd rest ih =>
    match hd with
    | Except.error e =>
      exact ih (by simpa [firstMatch] using h)
    | Except.ok e =>
      by_cases hf : e.isFile = true
      · by_cases hs : str_ends_with e.name ("runtimeconfig.json") = true
        · simp [firstMatch, hf, hs] at h
          subst h
          exact hs
        · simp only [Bool.not_eq_true] at hs
          exact ih (by simpa [firstMatch, hf, hs] using h)
      · simp only [Bool.not_eq_true] at hf
        exact ih (by simpa [firstMatch, hf] using h)

lemma str_ends_with_ne_empty (f : String)
    (h : str_ends_with f ("runtimeconfig.json") = true) : f ≠ "" := by
  intro hf
  subst hf
  simp [str_ends_with, List.isSuffixOf] at h

lemma string_mk_cons_ne_empty (c : Char) (l : List Char) : String.mk (c :: l) ≠ "" := by
  intro hcontra
  have hdata : (c :: l) = ([] : List Char) := congrArg String.data hcontra
  simp at hdata

lemma toList_eq_nil (f : String) (h : f.toList = []) : f = "" := by
  cases f with
  | mk data =>
    have h2 : data = [] := h
    subst h2
    rfl

lemma split_file_at_dot_ne_empty (f : String) (h : f ≠ "") :
    split_file_at_dot f ≠ "" := by
  unfold split_file_at_dot
  by_cases hdd : f = ".."
  · simp [hdd]
  · simp only [hdd, if_false]
    rcases hlist : f.toList with _ | ⟨c, rest⟩
    · exact absurd (toList_eq_nil f hlist) h
    · show (match rest.findIdx? (fun ch => ch == '.') with
            | none => f
            | some i => String.mk (c :: rest.take i)) ≠ ""
      rcases hidx : rest.findIdx? (fun ch => ch == '.') with _ | i
      · exact h
      · exact string_mk_cons_ne_empty c (rest.take i)

/-- Claim C2 (amended): when the scan of the publish directory finds a file ending in
"runtimeconfig.json", the resolved executable name is that file's name truncated at its
first interior dot (Rust `Path::file_prefix`, stripping all extensions, not only the
final one); when it finds none, the resolved name is the manifest's game name. -/
theorem resolve_executable_strips_all_extensions
    (entries : List (Except FsErr PubEntry)) (manifestName : String) :
    (∀ f, firstMatch entries = some f →
      resolve_executable entries manifestName = split_file_at_dot f) ∧
    (firstMatch entries = none → resolve_executable entries manifestName = manifestName) := by
  constructor
  · intro f hf
    have hne : split_file_at_dot f ≠ "" :=
      split_file_at_dot_ne_empty f
        (str_ends_with_ne_empty f (firstMatch_ends_with entries f hf))
    unfold resolve_executable
    rw [infer_executable_eq_firstMatch, hf]
    simp [hne]
  · intro hf
    unfold resolve_executable
    rw [infer_executable_eq_firstMatch, hf]
    simp

/-- Witness for C2 (amended): on a publish directory holding App.runtimeconfig.json the
resolution returns the file name truncated at its first dot. -/
theorem resolve_executable_strips_all_extensions_witness :
    resolve_executable [Except.ok ⟨"App.runtimeconfig.json", true⟩] ("Game") =
      split_file_at_dot ("App.runtimeconfig.json") := by
  exact (resolve_executable_strips_all_extensions
    [Except.ok ⟨"App.runtimeconfig.json", true⟩] ("Game")).1
    ("App.runtimeconfig.json") (by decide)

/-- Counterexample for C2 as stated: for the candidate file Foo.runtimeconfig.json the
code resolves "Foo" (all extensions stripped), not "Foo.runtimeconfig" (the name with
only its final extension removed), so the claim's description of the resolved name is
wrong on this input. -/
theorem resolve_executable_not_final_extension :
    resolve_executable [Except.ok ⟨"Foo.runtimeconfig.json", true⟩] ("MyGame") = "Foo" ∧
    strip_final_extension ("Foo.runtimeconfig.json") = "Foo.runtimeconfig" ∧
    resolve_executable [Except.ok ⟨"Foo.runtimeconfig.json", true⟩] ("MyGame") ≠
      strip_final_extension ("Foo.runtimeconfig.json") := by
  refine ⟨by decide, by decide, by decide⟩

/-- Claim C3: a publish directory whose candidate runtime descriptor is named
Foo.runtimeconfig.json resolves the executable name to exactly "Foo", and a publish
directory with no file ending in runtimeconfig.json resolves it to the manifest's game
name. -/
theorem resolve_executable_foo_example :
    (∀ (entries : List (Except FsErr PubEntry)) (manifestName : String),
      firstMatch entries = some ("Foo.runtimeconfig.json") →
      resolve_executable entries manifestName = "Foo") ∧
    (∀ (entries : List (Except FsErr PubEntry)) (manifestName : String),
      firstMatch entries = none →
      resolve_executable entries manifestName = manifestName) := by
  constructor
  · intro entries manifestName h
    have hfoo : split_file_at_dot ("Foo.runtimeconfig.json") = "Foo" := by decide
    have hne : ("Foo" : String) ≠ "" := by decide
    unfold resolve_executable
    rw [infer_executable_eq_firstMatch, h]
    simp [hfoo, hne]
  · intro entries manifestName h
    unfold resolve_executable
    rw [infer_executable_eq_firstMatch, h]
    simp

/-- Witness for C3: concrete publish listings for both halves of the claim. -/
theorem resolve_executable_foo_example_witness :
    resolve_executable [Except.ok ⟨"Foo.runtimeconfig.json", true⟩] ("MyGame") = "Foo" ∧
    resolve_executable
      [Except.ok ⟨"readme.txt", true⟩, Except.ok ⟨"publishdir", false⟩] ("MyGame") =
      "MyGame" := by
  constructor
  · exact resolve_executable_foo_example.1 _ _ (by decide)
  · exact resolve_executable_foo_example.2 _ _ (by decide)

/- ===== download_game (api/mod.rs lines 271-388) =====
The source first re-fetches the remote game record (`get_game`). If the local manifest
file exists and parses (`if path.exists()` then `if let Ok(game_) = game_from_path`),
and its hash equals the remote hash, it returns Ok before `request_bytes` on the bundle
payload. Otherwise it fetches and extracts the payload and unconditionally rewrites the
manifest with the fetched record; a failure of that final `std::fs::write` is only
logged. The state relevant to the claims is the manifest file: absent, present but
unparseable, or parsed. The returned Bool records whether the bundle payload was fetched
over the network. -/

/-- Local manifest state for one game id: `none` when game.json is absent, `some none`
when it exists but does not parse, `some (some g)` when it parses as `g`. -/
structure ManifestState where
  manifest : Option (Option DevcadeGame)
deriving DecidableEq

/-- Truth of the up-to-date check of `download_game`: the manifest parses and its stored
hash equals the freshly fetched remote hash. -/
def upToDate (remote : DevcadeGame) (st : ManifestState) : Bool :=
  match st.manifest with
  | some (some g) => g.hash == remote.hash
  | _ => false

/-- The function `download_game` on its manifest-relevant state, with network fetches
succeeding; `writeOk` tells whether the final manifest write succeeds (its failure is
only logged in the source). The Bool result records whether the bundle payload was
fetched. -/
def download_game (remote : DevcadeGame) (writeOk : Bool) (st : ManifestState) :
    ManifestState × Bool :=
  match st.manifest with
  | some (some g) =>
    if g.hash == remote.hash then (st, false)
    else (if writeOk then ⟨some (some remote)⟩ else st, true)
  | _ => (if writeOk then ⟨some (some remote)⟩ else st, true)

/-- Hash recorded in the manifest file, when one parses. -/
def storedHash (st : ManifestState) : Option String :=
  match st.manifest with
  | some (some g) => some g.hash
  | _ => none

/-- Claim C4: when the manifest parses and matches the remote hash, `download_game`
returns success untouched and without fetching the bundle payload; when it does not
match, the payload is fetched; and a second call right after a first one (whose manifest
write succeeded) never fetches the payload again, so two calls under an unchanged remote
hash perform exactly one payload download. -/
theorem download_game_idempotent_unchanged_hash (remote : DevcadeGame)
    (st : ManifestState) :
    (upToDate remote st = true → download_game remote true st = (st, false)) ∧
    (upToDate remote st = false → (download_game remote true st).2 = true) ∧
    (download_game remote true (download_game remote true st).1).2 = false := by
  rcases st with ⟨m⟩
  match m with
  | none => simp [upToDate, download_game]
  | some none => simp [upToDate, download_game]
  | some (some g) =>
    by_cases hh : g.hash == remote.hash
    · simp [upToDate, download_game, hh]
    · simp only [Bool.not_eq_true] at hh
      simp [upToDate, download_game, hh]

/-- Example remote game record with hash "abc". -/
def r0 : DevcadeGame := ⟨"g1", "dev", "2024", "G1", "abc", "", "", ""⟩

/-- Witness for C4: starting with no manifest, the first call fetches the payload and
the second call does not. -/
theorem download_game_idempotent_witness :
    (download_game r0 true ⟨none⟩).2 = true ∧
    (download_game r0 true (download_game r0 true ⟨none⟩).1).2 = false := by
  exact ⟨(download_game_idempotent_unchanged_hash r0 ⟨none⟩).2.1 (by rfl),
         (download_game_idempotent_unchanged_hash r0 ⟨none⟩).2.2⟩

/-- Claim C5: when the remote hash changes between two calls, the second call re-fetches
the bundle payload and afterwards the manifest's stored hash equals the new remote
hash. -/
theorem download_game_redownload_on_hash_change (r1 r2 : DevcadeGame)
    (st : ManifestState) (h : r2.hash ≠ r1.hash) :
    (download_game r2 true (download_game r1 true st).1).2 = true ∧
    storedHash (download_game r2 true (download_game r1 true st).1).1 = some r2.hash := by
  rcases st with ⟨m⟩
  have hne : ∀ g : DevcadeGame, g.hash = r1.hash → (g.hash == r2.hash) = false := by
    intro g hg
    rw [hg]
    exact beq_eq_false_iff_ne.mpr fun hc => h hc.symm
  match m with
  | none =>
    simp [download_game, storedHash, hne r1 rfl]
  | some none =>
    simp [download_game, storedHash, hne r1 rfl]
  | some (some g) =>
    by_cases hh : g.hash == r1.hash
    · have hg : g.hash = r1.hash := eq_of_beq hh
      simp [download_game, storedHash, hh, hne g hg]
    · simp only [Bool.not_eq_true] at hh
      simp [download_game, storedHash, hh, hne r1 rfl]

/-- Example remote record for the same game id as `r0` carrying the changed hash
"xyz". -/
def r0' : DevcadeGame := ⟨"g1", "dev", "2025", "G1", "xyz", "", "", ""⟩

/-- Witness for C5: after installing hash "abc", a call seeing remote hash "xyz"
re-fetches the payload and stores "xyz" in the manifest. -/
theorem download_game_redownload_witness :
    (download_game r0' true (download_game r0 true ⟨none⟩).1).2 = true ∧
    storedHash (download_game r0' true (download_game r0 true ⟨none⟩).1).1 =
      some ("xyz") := by
  exact download_game_redownload_on_hash_change r0 r0' ⟨none⟩ (by decide)

/- ===== tag_games (api/mod.rs lines 534-557) =====
The source fetches the minimal-game list for the tag (failure propagates), hydrates each
minimal game by an independent `get_game`-style fetch, awaits them all, and keeps only
the Ok results (`filter_map`), logging each failure. The hydration collaborator becomes
an explicit function argument. -/

/-- Hydration result of one minimal game as an Option, as `filter_map` sees it. -/
def hydrationOf (hydrate : MinimalGame → Except FsErr DevcadeGame) (m : MinimalGame) :
    Option DevcadeGame :=
  match hydrate m with
  | Except.ok g => some g
  | Except.error _ => none

/-- The function `tag_games`: propagate a failure of the tag query itself, then keep the
successfully hydrated games in order. -/
def tag_games (fetched : Except FsErr (List MinimalGame))
    (hydrate : MinimalGame → Except FsErr DevcadeGame) :
    Except FsErr (List DevcadeGame) :=
  match fetched with
  | Except.error e => Except.error e
  | Except.ok ms => Except.ok (ms.filterMap (hydrationOf hydrate))

lemma filterMap_length_of_isSome (f : MinimalGame → Option DevcadeGame)
    (l : List MinimalGame) (h : ∀ m ∈ l, (f m).isSome = true) :
    (l.filterMap f).length = l.length := by
  induction l with
  | nil => rfl
  | cons hd rest ih =>
    have hhd : (f hd).isSome = true := h hd (List.mem_cons_self hd rest)
    rcases hg : f hd with _ | g
    · rw [hg] at hhd
      simp at hhd
    · simp only [List.filterMap_cons, hg, List.length_cons]
      rw [ih fun m hm => h m (List.mem_cons_of_mem hd hm)]

/-- Claim C6: when the tag query succeeds with K minimal games and exactly one hydration
fails, `tag_games` still succeeds and returns exactly the K-1 hydrated games, in order. -/
theorem tag_games_partial_failure (hydrate : MinimalGame → Except FsErr DevcadeGame)
    (l1 l2 : List MinimalGame) (bad : MinimalGame)
    (h1 : ∀ m ∈ l1, (hydrationOf hydrate m).isSome = true)
    (hb : hydrationOf hydrate bad = none)
    (h2 : ∀ m ∈ l2, (hydrationOf hydrate m).isSome = true) :
    tag_games (Except.ok (l1 ++ bad :: l2)) hydrate =
      Except.ok (l1.filterMap (hydrationOf hydrate) ++ l2.filterMap (hydrationOf hydrate)) ∧
    (l1.filterMap (hydrationOf hydrate) ++ l2.filterMap (hydrationOf hydrate)).length + 1 =
      (l1 ++ bad :: l2).length := by
  constructor
  · simp [tag_games, List.filterMap_append, List.filterMap_cons, hb]
  · rw [List.length_append, filterMap_length_of_isSome _ l1 h1,
      filterMap_length_of_isSome _ l2 h2]
    simp [List.length_append]
    omega

/-- Concrete hydration collaborator failing exactly on the minimal game with id "bad". -/
def hyd0 (m : MinimalGame) : Except FsErr DevcadeGame :=
  if m.id == "bad" then Except.error ("network error")
  else Except.ok ⟨m.id, "", "", "", "", "", "", ""⟩

/-- Witness for C6: of three minimal games with one failing hydration, exactly the other
two are returned. -/
theorem tag_games_partial_failure_witness :
    tag_games (Except.ok [⟨"a"⟩, ⟨"bad"⟩, ⟨"c"⟩]) hyd0 =
      Except.ok (([⟨"a"⟩] : List MinimalGame).filterMap (hydrationOf hyd0) ++
        ([⟨"c"⟩] : List MinimalGame).filterMap (hydrationOf hyd0)) ∧
    (([⟨"a"⟩] : List MinimalGame).filterMap (hydrationOf hyd0) ++
        ([⟨"c"⟩] : List MinimalGame).filterMap (hydrationOf hyd0)).length + 1 =
      ([⟨"a"⟩, ⟨"bad"⟩, ⟨"c"⟩] : List MinimalGame).length := by
  exact tag_games_partial_failure hyd0 [⟨"a"⟩] [⟨"c"⟩] ⟨"bad"⟩
    (by decide) (by decide) (by decide)

/- ===== mkfifo / open_read / open_write (lib.rs lines 63-120) =====
The state of the single path these functions touch is what kind of filesystem entry sits
there (if any) and whether its parent directory exists. `Path::exists` is `node.isSome`;
`Path::is_file` is true exactly for a regular file (Rust's `is_file` is false for FIFOs
and directories). In `mkfifo` the source ignores the return value of `libc::mkfifo`, so
`libcOk` (did the libc call actually create the FIFO) does not influence the returned
result, only the resulting filesystem state. `parentOk` tells whether `create_dir_all`
would succeed when the parent is missing. -/

/-- Kind of filesystem entry sitting at a path. -/
inductive FileKind where
  | regular
  | fifo
  | directory
deriving DecidableEq

/-- State of the path an IPC primitive operates on: the entry at the path, if any, and
whether the parent directory exists. -/
structure PathState where
  node : Option FileKind
  parentExists : Bool
deriving DecidableEq

/-- The function `mkfifo` of lib.rs: an existing entry of any kind is accepted as-is (the
TODO in the source notes the missing FIFO check); otherwise the parent directory is
created if missing (failure propagating), and `libc::mkfifo` is invoked with its return
value ignored, so the call reports success whether or not the FIFO appeared. -/
def mkfifo (parentOk libcOk : Bool) (st : PathState) : PathState × Except FsErr Unit :=
  if st.node.isSome then (st, Except.ok ())
  else if !st.parentExists && !parentOk then (st, Except.error ("create_dir_all failed"))
  else
    ({ node := if libcOk then some FileKind.fifo else none, parentExists := true },
      Except.ok ())

/-- The function `open_read` of lib.rs: fail on a missing path without `create`; with
`create`, make the parent directory (failure propagating) and the FIFO; then reject any
path that is not a regular file (`Path::is_file`), and finally open for reading
(`openOk` tells whether the final `OpenOptions::open` succeeds). -/
def open_read (create parentOk fifoOk openOk : Bool) (st : PathState) :
    PathState × Except FsErr Unit :=
  if st.node.isNone && !create then (st, Except.error ("Path does not exist"))
  else if !st.parentExists && create && !parentOk then
    (st, Except.error ("create_dir_all failed"))
  else
    let st1 : PathState :=
      if !st.parentExists && create then { st with parentExists := true } else st
    let st2 : PathState :=
      if st1.node.isNone && create then (mkfifo true fifoOk st1).1 else st1
    if !(st2.node == some FileKind.regular) then (st2, Except.error ("Path is not a file"))
    else if openOk then (st2, Except.ok ()) else (st2, Except.error ("open failed"))

/-- The function `open_write` of lib.rs: identical to `open_read` except that the final
open is for writing. -/
def open_write (create parentOk fifoOk openOk : Bool) (st : PathState) :
    PathState × Except FsErr Unit :=
  if st.node.isNone && !create then (st, Except.error ("Path does not exist"))
  else if !st.parentExists && create && !parentOk then
    (st, Except.error ("create_dir_all failed"))
  else
    let st1 : PathState :=
      if !st.parentExists && create then { st with parentExists := true } else st
    let st2 : PathState :=
      if st1.node.isNone && create then (mkfifo true fifoOk st1).1 else st1
    if !(st2.node == some FileKind.regular) then (st2, Except.error ("Path is not a file"))
    else if openOk then (st2, Except.ok ()) else (st2, Except.error ("open failed"))

/-- Claim C7, evaluated on the code: with `create` and nothing at the path, `open_read`
creates the FIFO and then rejects it with "Path is not a file" (Rust `Path::is_file` is
false for FIFOs), and both functions reject an already existing FIFO the same way, while
the claim (and the functions' own doc comments, which present them as opening FIFO
pipes) says an existing FIFO is accepted; the no-create path does fail without creating
anything, as claimed. -/
theorem open_fifo_divergence :
    (open_read true true true true ⟨none, true⟩).2 = Except.error ("Path is not a file") ∧
    (open_read true true true true ⟨none, true⟩).1.node = some FileKind.fifo ∧
    (open_read false true true true ⟨some FileKind.fifo, true⟩).2 =
      Except.error ("Path is not a file") ∧
    (open_write false true true true ⟨some FileKind.fifo, true⟩).2 =
      Except.error ("Path is not a file") ∧
    open_read false true true true ⟨none, true⟩ =
      (⟨none, true⟩, Except.error ("Path does not exist")) := by
  exact ⟨rfl, rfl, rfl, rfl, rfl⟩

/-- Claim C10: when nothing sits at the path and the parent directory exists or can be
created, `mkfifo` reports success regardless of whether the libc FIFO creation worked,
and when it failed the path still holds nothing. -/
theorem mkfifo_ignores_libc_result (st : PathState) (parentOk libcOk : Bool)
    (hnode : st.node = none) (hparent : st.parentExists = true ∨ parentOk = true) :
    (mkfifo parentOk libcOk st).2 = Except.ok () ∧
    (libcOk = false → (mkfifo parentOk libcOk st).1.node = none) := by
  rcases st with ⟨node, parent⟩
  subst hnode
  rcases hparent with hp | hp
  · subst hp
    cases libcOk <;> simp [mkfifo]
  · subst hp
    cases libcOk <;> cases parent <;> simp [mkfifo]

/-- Witness for C10: with an existing parent and a failing libc call, `mkfifo` still
reports success and no FIFO exists afterwards. -/
theorem mkfifo_ignores_libc_result_witness :
    (mkfifo true false ⟨none, true⟩).2 = Except.ok () ∧
    (mkfifo true false ⟨none, true⟩).1.node = none := by
  have h := mkfifo_ignores_libc_result ⟨none, true⟩ true false rfl (Or.inl rfl)
  exact ⟨h.1, h.2 rfl⟩

/- ===== launch_game process supervision (api/mod.rs lines 480-502) =====
After resolving the executable, the source checks `path.exists()` (returning
`Err("Game executable not found")`), sets permissions (`?` propagating as an error), and
then runs `child.spawn().expect("Failed to launch game")` followed by
`child.wait().await.expect("Failed to launch game")`: both failures panic instead of
returning the documented error. The outcome distinguishes a returned error from a
panic. -/

/-- Outcome of the final phase of `launch_game`: a returned Ok, a returned Err, or a
panic raised by `expect`. -/
inductive LaunchResult where
  | ok
  | err (msg : FsErr)
  | panicked (msg : FsErr)
deriving DecidableEq

/-- True exactly on outcomes returned to the caller as the operation's failure result. -/
def isErrResult : LaunchResult → Bool
  | LaunchResult.err _ => true
  | _ => false

/-- The spawn-and-supervise tail of `launch_game`, with the existence check, the
permission change, the spawn, and the wait made explicit. -/
def launch_run (exeExists permsOk spawnOk waitOk : Bool) : LaunchResult :=
  if !exeExists then LaunchResult.err ("Game executable not found")
  else if !permsOk then LaunchResult.err ("set_permissions failed")
  else if !spawnOk then LaunchResult.panicked ("Failed to launch game")
  else if !waitOk then LaunchResult.panicked ("Failed to launch game")
  else LaunchResult.ok

/-- Claim C8, evaluated on the code: a failed spawn and a failed wait both abort the
launch attempt by panicking through `expect("Failed to launch game")`, and neither is
returned to the caller as the operation's failure result (contrary to the claim and to
the function's doc, which promises an error return and no panic). -/
theorem launch_game_spawn_wait_panic :
    launch_run true true false true = LaunchResult.panicked ("Failed to launch game") ∧
    launch_run true true true false = LaunchResult.panicked ("Failed to launch game") ∧
    isErrResult (launch_run true true false true) = false ∧
    isErrResult (launch_run true true true false) = false ∧
    launch_run false true true true = LaunchResult.err ("Game executable not found") := by
  exact ⟨rfl, rfl, rfl, rfl, rfl⟩

/- ===== nfc_tags (api/mod.rs lines 248-254) =====
The source asserts `reader_id == Player::P1` before contacting the NFC client, so any
other reader id panics first. `Player` is the two-player enum of the shared types crate
(the cabinet has readers for players one and two); the embedding records whether the
call panics on the assertion or goes on to contact the card-reader collaborator. -/

/-- The `Player` enum of the shared types crate, modelled with the cabinet's two
players. -/
inductive Player where
  | P1
  | P2
deriving DecidableEq

/-- What `nfc_tags` does before any result is produced: panic on the assertion or
contact the card-reader collaborator. -/
inductive NfcCall where
  | panicked
  | submitted
deriving DecidableEq

/-- The function `nfc_tags` up to its interaction with the NFC client: the initial
`assert!(reader_id == Player::P1)` panics on any other reader. -/
def nfc_tags (reader_id : Player) : NfcCall :=
  if reader_id == Player.P1 then NfcCall.submitted else NfcCall.panicked

/-- Claim C9: every reader id other than Player 1 fails the initial assertion (the call
panics before contacting the card reader), and with reader id Player 1 the assertion
never fails. -/
theorem nfc_tags_requires_player_one :
    (∀ r : Player, r ≠ Player.P1 → nfc_tags r = NfcCall.panicked) ∧
    nfc_tags Player.P1 = NfcCall.submitted := by
  constructor
  · intro r hr
    cases r with
    | P1 => exact absurd rfl hr
    | P2 => rfl
  · rfl

/-- Witness for C9: the Player 2 reader id panics the assertion. -/
theorem nfc_tags_requires_player_one_witness :
    nfc_tags Player.P2 = NfcCall.panicked := by
  exact nfc_tags_requires_player_one.1 Player.P2 (by decide)
